import Mathlib

/-!
# Verification of the stock-news summarizer (`streamlit_app.py`)

A shallow embedding of the repository's single source file.  Python lists
become Lean `List`s, Python strings become Lean `String`s (sequences of code
points, matching Python's code-point indexing for `len`, slicing and
concatenation), Python `float` arithmetic on the wait-time values is
carried out on exact decimals (`Dec`, exact for every value this program
produces: decimal literals plus one), and the two external
collaborators — the Groq chat-completion client and the news/ticker HTTP
services — are oracle parameters.  The `while` loops of `summarize_articles`
are embedded as fuel-indexed structural recursion; running out of fuel is
reported by a dedicated constructor, so termination of the Python loop at a
given input corresponds to some fuel producing a non-fuel-out result.

String helpers (`pyTake`, `pyStrip`, `strContains`, …) are written by
structural recursion over the character list so that every definition
evaluates inside the kernel.
-/

namespace StockNews


/-! ## Python string primitives -/

/-- Python `s[:n]` on strings: take the first `n` code points. -/
def pyTake (s : String) (n : Nat) : String := String.mk (s.data.take n)

/-- Python `str.strip()`: drop leading and trailing whitespace.
(Python strips all Unicode whitespace; the characters that occur in this
program are covered by `Char.isWhitespace`.) -/
def pyStrip (s : String) : String :=
  String.mk (((s.data.dropWhile Char.isWhitespace).reverse.dropWhile
      Char.isWhitespace).reverse)

/-- Substring occurrence on character lists: does `pat` occur inside `hay`?
Mirrors Python's `pat in hay`. -/
def subOcc (pat : List Char) : List Char → Bool
  | [] => pat.isEmpty
  | c :: t => pat.isPrefixOf (c :: t) || subOcc pat t

/-- Python `pat in s` for strings. -/
def strContains (s pat : String) : Bool := subOcc pat.data s.data

/-- Python `sep.join(parts)`. -/
def pyJoin (sep : String) : List String → String
  | [] => ""
  | [x] => x
  | x :: y :: t => x ++ sep ++ pyJoin sep (y :: t)

/-- Numeric value of a list of decimal digit characters (the list is all
digits wherever this is used). -/
def digitsToNat (l : List Char) : Nat :=
  l.foldl (fun n c => n * 10 + (c.toNat - 48)) 0

/-- An exact non-negative decimal number `mant / 10 ^ exp`.  The wait-time
floats this program manipulates are parsed from decimal literals and only
ever have `1` added to them, so they are represented exactly. -/
structure Dec where
  mant : Nat
  exp : Nat
deriving DecidableEq, Repr

/-- The rational value of a `Dec`. -/
def Dec.toQ (d : Dec) : ℚ := (d.mant : ℚ) / (10 : ℚ) ^ d.exp

/-- `d + 1`, exactly. -/
def Dec.addOne (d : Dec) : Dec := ⟨d.mant + 10 ^ d.exp, d.exp⟩

/-- Python `float(s)` restricted to strings of digits and dots — exactly the
shape the regex group `[\d.]+` can produce.  `none` models the `ValueError`
that `float` raises on inputs such as `"."` or `"1.2.3"`. -/
def pyFloat (l : List Char) : Option Dec :=
  let intPart := l.takeWhile (fun c => c ≠ '.')
  let rest := l.drop intPart.length
  if intPart.all Char.isDigit then
    match rest with
    | [] => if intPart.isEmpty then none else some ⟨digitsToNat intPart, 0⟩
    | _ :: fracPart =>
      if fracPart.all Char.isDigit then
        if intPart.isEmpty ∧ fracPart.isEmpty then none
        else some ⟨digitsToNat (intPart ++ fracPart), fracPart.length⟩
      else none
  else none

/-- The literal of the wait-time regex `r'Please try again in ([\d.]+)s'`. -/
def waitLit : List Char := "Please try again in ".data

/-- Characters matched by the regex class `[\d.]`. -/
def isWaitChar (c : Char) : Bool := c.isDigit || c = '.'

/-- `re.search(r'Please try again in ([\d.]+)s', msg)`: scan left to right
for the first position where the whole pattern matches and return the
captured group.  (The greedy group must be the maximal `[\d.]` run, since a
shorter prefix would have to be followed by `'s'`, which is not a `[\d.]`
character.) -/
def findWaitGroup : List Char → Option (List Char)
  | [] => none
  | c :: t =>
    if waitLit.isPrefixOf (c :: t) then
      let rest := (c :: t).drop waitLit.length
      let run := rest.takeWhile isWaitChar
      if run.isEmpty = false ∧ (rest.drop run.length).take 1 = ['s'] then
        some run
      else findWaitGroup t
    else findWaitGroup t

/-! ## Dates (Python `datetime.date`) -/

/-- A calendar date; ordering is lexicographic on `(year, month, day)`, as
for Python `date` objects. -/
structure Date where
  year : Nat
  month : Nat
  day : Nat
deriving DecidableEq, Repr

/-- Python `a < b` on dates. -/
def Date.ltB (a b : Date) : Bool :=
  a.year < b.year
    || (a.year = b.year
      && (a.month < b.month || (a.month = b.month && a.day < b.day)))

/-- Python `a <= b` on dates. -/
def Date.leB (a b : Date) : Bool := Date.ltB a b || a = b

/-- Gregorian leap year, as used by `datetime`. -/
def isLeap (y : Nat) : Bool := y % 4 = 0 && (y % 100 = 0 → y % 400 = 0)

/-- Number of days in a month. -/
def daysInMonth (y m : Nat) : Nat :=
  if m = 2 then (if isLeap y then 29 else 28)
  else if m = 4 ∨ m = 6 ∨ m = 9 ∨ m = 11 then 30
  else 31

/-- Days since 1970-01-01 (Hinnant's civil-calendar algorithm), used to
embed `timedelta` arithmetic on dates. -/
def Date.toDays (dt : Date) : Int :=
  let y : Int := if dt.month ≤ 2 then (dt.year : Int) - 1 else (dt.year : Int)
  let era : Int := y.fdiv 400
  let yoe : Int := y - era * 400
  let mp : Int := ((dt.month : Int) + 9) % 12
  let doy : Int := (153 * mp + 2).fdiv 5 + (dt.day : Int) - 1
  let doe : Int := yoe * 365 + yoe.fdiv 4 - yoe.fdiv 100 + doy
  era * 146097 + doe - 719468

/-- Inverse of `Date.toDays`. -/
def Date.ofDays (z0 : Int) : Date :=
  let z : Int := z0 + 719468
  let era : Int := z.fdiv 146097
  let doe : Int := z - era * 146097
  let yoe : Int := (doe - doe.fdiv 1460 + doe.fdiv 36524 - doe.fdiv 146096).fdiv 365
  let y : Int := yoe + era * 400
  let doy : Int := doe - (365 * yoe + yoe.fdiv 4 - yoe.fdiv 100)
  let mp : Int := (5 * doy + 2).fdiv 153
  let d : Int := doy - (153 * mp + 2).fdiv 5 + 1
  let m : Int := if mp < 10 then mp + 3 else mp - 9
  let y : Int := if m ≤ 2 then y + 1 else y
  ⟨y.toNat, m.toNat, d.toNat⟩

/-- `dt - timedelta(days=n)`. -/
def Date.subDays (dt : Date) (n : Nat) : Date := Date.ofDays (dt.toDays - (n : Int))

/-- Split a character list at every `'-'`, keeping empty fields. -/
def splitDash : List Char → List (List Char)
  | [] => [[]]
  | c :: t =>
    if c = '-' then [] :: splitDash t
    else
      match splitDash t with
      | [] => [[c]]
      | f :: r => (c :: f) :: r

/-- `datetime.strptime(s.strip(), '%Y-%m-%d').date()` with the `ValueError`
modelled as `none`.  CPython's `%Y` matches exactly four digits, `%m` and
`%d` one or two digits in range (with the full string consumed), and `date`
construction then validates the day against the month length and rejects
year 0. -/
def parseYMD (s : String) : Option Date :=
  match splitDash (pyStrip s).data with
  | [ys, ms, ds] =>
    if ys.all Char.isDigit ∧ ys.length = 4
        ∧ ms.all Char.isDigit ∧ (ms.length = 1 ∨ ms.length = 2)
        ∧ ds.all Char.isDigit ∧ (ds.length = 1 ∨ ds.length = 2) then
      let y := digitsToNat ys
      let m := digitsToNat ms
      let d := digitsToNat ds
      if 1 ≤ y ∧ 1 ≤ m ∧ m ≤ 12 ∧ 1 ≤ d ∧ d ≤ daysInMonth y m then
        some ⟨y, m, d⟩
      else none
    else none
  | _ => none

/-! ## Data model -/

/-- One fetched news article: the tuple `(pub_date, title, link)`. -/
structure Article where
  pubDate : Date
  title : String
  link : String
deriving DecidableEq, Repr

/-! ## The Batch Summarizer (`summarize_articles`, lines 70–122)

Constants from the source:
`max_model_tokens = 8192`, `max_output_tokens = 512`,
`max_tokens_per_minute = 7000`, `estimated_tokens_per_char = 1/4`. -/

def max_model_tokens : Nat := 8192

def max_output_tokens : Nat := 512

def max_tokens_per_minute : Nat := 7000

/-- `f"{title[:80]} (Link: {link})"` for one article. -/
def renderArticle (a : Article) : String :=
  pyTake a.title 80 ++ " (Link: " ++ a.link ++ ")"

/-- `"\n".join(...)` over the batch: the prompt body `summary_input`. -/
def renderBatch (batch : List Article) : String :=
  pyJoin "\n" (batch.map renderArticle)

/-- `int(len(summary_input) * estimated_tokens_per_char)`: `float`
multiplication by `0.25` is exact, and `int` truncates toward zero, so this
is floor division by 4. -/
def input_tokens (summary_input : String) : Nat := summary_input.length / 4

/-- The fixed prefix of the user message sent to the model. -/
def promptPre : String :=
  "Summarize key updates or issues of the company based on the following articles:\n"

/-- Outcome of one `client.chat.completions.create` call: either the
response content (`completion.choices[0].message.content`) or the message
text of a raised `groq.APIError`. -/
inductive ModelOutcome where
  | success (text : String)
  | apiError (msg : String)
deriving DecidableEq, Repr

/-- The model client as an oracle: call index and full prompt content in,
outcome out. -/
def Oracle : Type := Nat → String → ModelOutcome

/-- The mutable locals of `summarize_articles`, plus an observation trace:
`calls` records `(num_articles, summary_input)` for every submitted batch,
`succs` the sizes of the batches that succeeded, and `sleeps` the durations
passed to `time.sleep`. -/
structure RState where
  batch_articles : List Article
  summaries : List String
  k : Nat
  calls : List (Nat × String)
  succs : List Nat
  sleeps : List Dec
deriving DecidableEq, Repr

/-- How one pass of the inner `while num_articles > 0` loop ends. -/
inductive InnerRes where
  | broke (s : RState)
  | zero (s : RState)
  | ret (s : RState)
  | exn (s : RState) (e : String)
  | fuelOut (s : RState)
deriving DecidableEq, Repr

/-- The inner loop (lines 80–115).  `num` is `num_articles`.  Rate-limit
errors retry at the same `num`; context-length errors and over-budget
estimates shrink `num` by one; other API errors return immediately.  The
`ValueError` that `float` raises inside the rate-limit handler on a group
such as `"1.2.3"` escapes the `except APIError` block and is reported by
`.exn`. -/
def innerLoop (oracle : Oracle) : Nat → RState → Nat → InnerRes
  | 0, s, _ => .fuelOut s
  | fuel + 1, s, num =>
    if num = 0 then .zero s
    else
      let batch := s.batch_articles.take num
      let summary_input := renderBatch batch
      let total_tokens := input_tokens summary_input + max_output_tokens
      if total_tokens ≤ min max_model_tokens max_tokens_per_minute then
        let content := promptPre ++ summary_input
        let s' : RState := { s with k := s.k + 1, calls := s.calls ++ [(num, summary_input)] }
        match oracle s.k content with
        | .success text =>
          .broke { s' with
            summaries := s'.summaries ++ [pyStrip text],
            succs := s'.succs ++ [num],
            batch_articles := s'.batch_articles.drop num }
        | .apiError msg =>
          if strContains msg "rate_limit_exceeded" then
            match findWaitGroup msg.data with
            | some g =>
              match pyFloat g with
              | some q => innerLoop oracle fuel { s' with sleeps := s'.sleeps ++ [q.addOne] } num
              | none => .exn s' "ValueError: could not convert string to float"
            | none => innerLoop oracle fuel { s' with sleeps := s'.sleeps ++ [⟨60, 0⟩] } num
          else if strContains msg "context_length_exceeded"
              || strContains msg "Please reduce the length of the messages or completion" then
            innerLoop oracle fuel s' (num - 1)
          else .ret s'
      else innerLoop oracle fuel s (num - 1)

/-- How the whole of `summarize_articles` ends: the final joined string, an
uncaught exception, or fuel exhaustion (the Python loop still running). -/
inductive RunRes where
  | done (s : RState) (result : String)
  | exn (s : RState) (e : String)
  | fuelOut (s : RState)
deriving DecidableEq, Repr

/-- The outer `while batch_articles` loop (lines 78–119) followed by the
final `return "\n\n".join(summaries)`. -/
def outerLoop (oracle : Oracle) : Nat → RState → RunRes
  | 0, s => .fuelOut s
  | fuel + 1, s =>
    if s.batch_articles.isEmpty then .done s (pyJoin "\n\n" s.summaries)
    else
      match innerLoop oracle fuel s s.batch_articles.length with
      | .broke s' => outerLoop oracle fuel s'
      | .zero s' => .done s' (pyJoin "\n\n" s'.summaries)
      | .ret s' => .done s' (pyJoin "\n\n" s'.summaries)
      | .exn s' e => .exn s' e
      | .fuelOut s' => .fuelOut s'

/-- `summarize_articles(articles)`: fresh locals, then the nested loops.
(`articles.copy()` is the identity on the list value.) -/
def summarize_articles (oracle : Oracle) (fuel : Nat) (articles : List Article) : RunRes :=
  outerLoop oracle fuel
    { batch_articles := articles, summaries := [], k := 0,
      calls := [], succs := [], sleeps := [] }

/-- The state carried by a run result, for stating trace invariants. -/
def RunRes.state : RunRes → RState
  | .done s _ => s
  | .exn s _ => s
  | .fuelOut s => s

/-- The state carried by an inner-loop result. -/
def InnerRes.state : InnerRes → RState
  | .broke s => s
  | .zero s => s
  | .ret s => s
  | .exn s _ => s
  | .fuelOut s => s

/-- The eligibility condition of line 86:
`total_tokens <= min(max_model_tokens, max_tokens_per_minute)`. -/
def fitsBudget (summary_input : String) : Prop :=
  input_tokens summary_input + max_output_tokens
    ≤ min max_model_tokens max_tokens_per_minute

instance (s : String) : Decidable (fitsBudget s) := by
  unfold fitsBudget; infer_instance

/-- The token estimate as the spec's words state it:
`round(length(promptBody) * estimatedTokensPerChar)`, rounding to the
nearest integer.  (The source instead truncates with `int(...)`.) -/
def specEstimate (summary_input : String) : ℤ :=
  round ((summary_input.length : ℚ) * (1 / 4 : ℚ))

/-- The sleep duration as the spec's words state it: the regex-extracted
seconds, *defaulting to 60 if unparsable*, plus a 1-second safety margin.
(The source adds the margin only on the parsed branch and sleeps a flat 60
otherwise.) -/
def claimedSleep (msg : String) : Dec :=
  match findWaitGroup msg.data with
  | some g =>
    match pyFloat g with
    | some q => q.addOne
    | none => Dec.addOne ⟨60, 0⟩
  | none => Dec.addOne ⟨60, 0⟩

/-! ## The Article Source (`fetch_news`, lines 30–67)

`requests.get` + `BeautifulSoup` are modelled as an oracle from the query
string to either a raised exception (`Except.error`, **not** caught by
`fetch_news`) or a list of RSS items.  Each item's attribute accesses and
the `strptime` of its `pubDate` text are modelled jointly as fallible
fields; any failure is caught by the per-item `try/except` and the item is
skipped. -/

/-- One `<item>` of the RSS soup, with fallible field extraction. -/
structure RssItem where
  title : Except String String
  link : Except String String
  pubDate : Except String Date
deriving Repr

/-- The `for item in items` loop: date-range filter, then `(title, link)`
deduplication against `seen_articles`; extraction errors skip the item. -/
def collectArticles (start_date end_date : Date) :
    List RssItem → List Article → List (String × String) → List Article
  | [], articles, _ => articles
  | item :: rest, articles, seen =>
    match item.title, item.link, item.pubDate with
    | .ok t, .ok l, .ok d =>
      if start_date.leB d && d.leB end_date then
        if seen.contains (t, l) then
          collectArticles start_date end_date rest articles seen
        else
          collectArticles start_date end_date rest
            (articles ++ [⟨d, t, l⟩]) (seen ++ [(t, l)])
      else collectArticles start_date end_date rest articles seen
    | _, _, _ => collectArticles start_date end_date rest articles seen

/-- `fetch_news(company_name, ticker, start_date, end_date)`; called with
the default `seen_articles=None`, hence a fresh empty seen-set.  A failure
of the HTTP request itself is **not** caught and propagates. -/
def fetch_news (rss : String → Except String (List RssItem))
    (company_name ticker : String) (start_date end_date : Date) :
    Except String (List Article) :=
  match rss ("\"" ++ company_name ++ "\" OR " ++ ticker ++ " stock") with
  | .error e => .error e
  | .ok items => .ok (collectArticles start_date end_date items [] [])

/-! ## The Orchestrator (`summarize_stock_news`, lines 125–157) -/

/-- A value passed for `start_date` / `end_date`: Python `None`, a string,
or a `date` object. -/
inductive DateInput where
  | noneV
  | str (s : String)
  | date (d : Date)
deriving DecidableEq, Repr

/-- Python truth-value test `not start_date`: `None` and `""` are falsy;
`date` objects are always truthy. -/
def DateInput.falsy : DateInput → Bool
  | .noneV => true
  | .str s => s = ""
  | .date _ => false

/-- The `isinstance(_, str)` conversion step: strings are parsed
(`strptime` on the stripped string), `date` objects pass through. -/
def DateInput.toDate : DateInput → Option Date
  | .noneV => none
  | .str s => parseYMD s
  | .date d => some d

/-- Externally observable effects of one orchestrator run, to express
"makes no network calls". -/
inductive ExtCall where
  | tickerLookup (t : String)
  | httpGet
  | model (batchSize : Nat)
deriving DecidableEq, Repr

/-- The orchestrator's result: a returned string, an uncaught exception, or
fuel exhaustion inside the summarizer loop. -/
inductive SSNRes where
  | ok (msg : String)
  | raised (e : String)
  | fuelOut
deriving DecidableEq, Repr

/-- `summarize_stock_news(ticker, start_date, end_date)`.  `today` stands
for `datetime.now().date()`; `lookup` models `yf.Ticker(ticker).info.get
('longName', '')` inside its `try` (`Except.error` = any exception there);
`rss` and `oracle` are the news and model oracles.  The second component
lists the external calls performed, in order. -/
def summarize_stock_news (today : Date)
    (lookup : String → Except String String)
    (rss : String → Except String (List RssItem))
    (oracle : Oracle) (fuel : Nat)
    (ticker : String) (startIn endIn : DateInput) : SSNRes × List ExtCall :=
  let startIn := if startIn.falsy then .date (today.subDays 30) else startIn
  let endIn := if endIn.falsy then .date today else endIn
  match startIn.toDate, endIn.toDate with
  | some start_date, some end_date =>
    if Date.ltB end_date start_date then
      (.ok "Start date must be before end date.", [])
    else
      match lookup ticker with
      | .error _ => (.ok "Failed to retrieve company information.", [.tickerLookup ticker])
      | .ok company_name =>
        if company_name = "" then (.ok "Invalid stock ticker.", [.tickerLookup ticker])
        else
          match fetch_news rss company_name ticker start_date end_date with
          | .error e => (.raised e, [.tickerLookup ticker, .httpGet])
          | .ok articles =>
            if articles.isEmpty then
              (.ok "No articles found.", [.tickerLookup ticker, .httpGet])
            else
              match summarize_articles oracle fuel articles with
              | .done _ r =>
                (.ok r, [.tickerLookup ticker, .httpGet]
                  ++ (summarize_articles oracle fuel articles).state.calls.map
                    (fun c => ExtCall.model c.1))
              | .exn _ e =>
                (.raised e, [.tickerLookup ticker, .httpGet]
                  ++ (summarize_articles oracle fuel articles).state.calls.map
                    (fun c => ExtCall.model c.1))
              | .fuelOut _ =>
                (.fuelOut, [.tickerLookup ticker, .httpGet]
                  ++ (summarize_articles oracle fuel articles).state.calls.map
                    (fun c => ExtCall.model c.1))
  | _, _ => (.ok "Please enter valid dates in YYYY-MM-DD format.", [])

/-! ## The password gate (lines 166–172) -/

/-- The UI gate comparison `password == correct_password`, where
`correct_password = os.getenv("APP_PASSWORD")` — `none` models an unset
variable (Python `None`), and a Python `str` never equals `None`. -/
def gate_matches (correct_password : Option String) (password : String) : Bool :=
  match correct_password with
  | none => false
  | some c => password = c

/-! ## Heap-level model of `summarize_articles` (for the frame property)

Python lists are mutable objects; to state that `summarize_articles` never
mutates its argument we re-run the same control flow over an explicit store
of list objects.  Every list-producing operation the function performs —
`articles.copy()`, `batch_articles[:n]`, `batch_articles[n:]` — allocates a
fresh object; no statement assigns into an existing list of `Article`s.
(`summaries` is a freshly created local list of immutable strings, so it is
kept as a pure value: no operation on it can reach the argument.) -/

/-- A store of Python list objects, addressed by allocation index. -/
structure Heap where
  cells : List (List Article)
deriving Repr

/-- Dereference. -/
def Heap.read (h : Heap) (r : Nat) : List Article := h.cells.getD r []

/-- Allocate a fresh list object holding `v`. -/
def Heap.alloc (h : Heap) (v : List Article) : Nat × Heap :=
  (h.cells.length, ⟨h.cells ++ [v]⟩)

/-- Locals of the heap-level run: references instead of list values. -/
structure HState where
  heap : Heap
  batchRef : Nat
  summaries : List String
  k : Nat
deriving Repr

/-- Inner-loop outcome, heap level. -/
inductive InnerResH where
  | broke (s : HState)
  | zero (s : HState)
  | ret (s : HState)
  | exn (s : HState) (e : String)
  | fuelOut (s : HState)
deriving Repr

/-- The inner loop over the store: `batch = batch_articles[:num]` allocates
a slice each iteration; a successful call allocates `batch_articles[num:]`
and rebinds the local name to it. -/
def innerLoopH (oracle : Oracle) : Nat → HState → Nat → InnerResH
  | 0, s, _ => .fuelOut s
  | fuel + 1, s, num =>
    if num = 0 then .zero s
    else
      let p := s.heap.alloc ((s.heap.read s.batchRef).take num)
      let s1 : HState := { s with heap := p.2 }
      let summary_input := renderBatch (s1.heap.read p.1)
      if input_tokens summary_input + max_output_tokens
          ≤ min max_model_tokens max_tokens_per_minute then
        match oracle s1.k (promptPre ++ summary_input) with
        | .success text =>
          let q := s1.heap.alloc ((s1.heap.read s1.batchRef).drop num)
          .broke { heap := q.2, batchRef := q.1,
                   summaries := s1.summaries ++ [pyStrip text], k := s1.k + 1 }
        | .apiError msg =>
          if strContains msg "rate_limit_exceeded" then
            match findWaitGroup msg.data with
            | some g =>
              match pyFloat g with
              | some _ => innerLoopH oracle fuel { s1 with k := s1.k + 1 } num
              | none => .exn { s1 with k := s1.k + 1 }
                  "ValueError: could not convert string to float"
            | none => innerLoopH oracle fuel { s1 with k := s1.k + 1 } num
          else if strContains msg "context_length_exceeded"
              || strContains msg "Please reduce the length of the messages or completion" then
            innerLoopH oracle fuel { s1 with k := s1.k + 1 } (num - 1)
          else .ret { s1 with k := s1.k + 1 }
      else innerLoopH oracle fuel s1 (num - 1)

/-- Whole-run outcome, heap level. -/
inductive HRunRes where
  | done (s : HState) (result : String)
  | exn (s : HState) (e : String)
  | fuelOut (s : HState)
deriving Repr

/-- The state carried by a heap-level result. -/
def HRunRes.hstate : HRunRes → HState
  | .done s _ => s
  | .exn s _ => s
  | .fuelOut s => s

/-- The outer loop over the store. -/
def outerLoopH (oracle : Oracle) : Nat → HState → HRunRes
  | 0, s => .fuelOut s
  | fuel + 1, s =>
    if (s.heap.read s.batchRef).isEmpty then .done s (pyJoin "\n\n" s.summaries)
    else
      match innerLoopH oracle fuel s (s.heap.read s.batchRef).length with
      | .broke s' => outerLoopH oracle fuel s'
      | .zero s' => .done s' (pyJoin "\n\n" s'.summaries)
      | .ret s' => .done s' (pyJoin "\n\n" s'.summaries)
      | .exn s' e => .exn s' e
      | .fuelOut s' => .fuelOut s'

/-- `summarize_articles` over the store: the argument is the object at
`articlesRef`; `articles.copy()` allocates the fresh working list. -/
def summarize_articlesH (oracle : Oracle) (fuel : Nat) (h0 : Heap)
    (articlesRef : Nat) : HRunRes :=
  let p := h0.alloc (h0.read articlesRef)
  outerLoopH oracle fuel { heap := p.2, batchRef := p.1, summaries := [], k := 0 }

/-- An oracle whose rate-limit messages never make `float()` raise: whenever
the regex matches, the captured group is a valid float literal. -/
def WFOracle (oracle : Oracle) : Prop :=
  ∀ k c msg g, oracle k c = .apiError msg →
    strContains msg "rate_limit_exceeded" = true →
    findWaitGroup msg.data = some g → pyFloat g ≠ none

/-! ## Concrete fixtures used in scenario theorems and witnesses -/

/-- The hstate carried by a heap-level inner result. -/
def InnerResH.hstate : InnerResH → HState
  | .broke s => s
  | .zero s => s
  | .ret s => s
  | .exn s _ => s
  | .fuelOut s => s

def tA : Article := ⟨⟨2024, 1, 1⟩, "T1", "L1"⟩

def tB : Article := ⟨⟨2024, 1, 2⟩, "T2", "L2"⟩

def fiveArticles : List Article :=
  [⟨⟨2024, 1, 1⟩, "T1", "L1"⟩, ⟨⟨2024, 1, 2⟩, "T2", "L2"⟩, ⟨⟨2024, 1, 3⟩, "T3", "L3"⟩,
   ⟨⟨2024, 1, 4⟩, "T4", "L4"⟩, ⟨⟨2024, 1, 5⟩, "T5", "L5"⟩]

/-- A model stub that always succeeds. -/
def okOracle : Oracle := fun _ _ => .success "S"

/-- A model stub that rejects any prompt holding more than one article line
(the prompt prefix contributes one newline; each further newline marks a
second article) and succeeds on single-article prompts. -/
def sizeStub : Oracle := fun _ content =>
  if 1 < (content.data.filter (fun c => c = '\n')).length then
    .apiError "context_length_exceeded"
  else .success "S"

/-- Rate-limited once with a provider-suggested 2-second wait, then
succeeds. -/
def rlOnceOracle : Oracle := fun k _ =>
  if k = 0 then .apiError "Error code: 429 - rate_limit_exceeded: Please try again in 2s."
  else .success "S"

/-- Rate-limited once with no parsable wait time, then succeeds. -/
def rlNoTimeOracle : Oracle := fun k _ =>
  if k = 0 then .apiError "rate_limit_exceeded" else .success "S"

/-- Always fails with an error that is neither rate-limit nor
context-length. -/
def failOracle : Oracle := fun _ _ => .apiError "Internal server error"

/-- Rejects multi-article prompts, answers the first single-article prompt,
then fails unrecoverably. -/
def c4Oracle : Oracle := fun k content =>
  if 1 < (content.data.filter (fun c => c = '\n')).length then
    .apiError "context_length_exceeded"
  else if k ≤ 1 then .success "A"
  else .apiError "Internal server error"

/-- A string of `n` copies of `'x'`. -/
def xs (n : Nat) : String := String.mk (List.replicate n 'x')

/-- Renders to exactly 25955 characters: the largest single-article prompt
body the source still submits (floor estimate 6488). -/
def bigArticle : Article := ⟨⟨2024, 1, 1⟩, "T", xs 25945⟩

/-- Renders to 30010 characters: over the local budget even alone. -/
def hugeArticle : Article := ⟨⟨2024, 1, 1⟩, "T", xs 30000⟩

def lookupOK : String → Except String String := fun _ => .ok "NVIDIA Corporation"

def rssFail : String → Except String (List RssItem) :=
  fun _ => .error "requests.exceptions.ConnectionError"

def rssEmpty : String → Except String (List RssItem) := fun _ => .ok []

def today0 : Date := ⟨2025, 10, 12⟩

def c1state : RState := ⟨[bigArticle], [], 0, [], [], []⟩

def c1done : RState := ⟨[], ["S"], 1, [(1, renderBatch [bigArticle])], [1], []⟩

/-- Result string of a normally-returned run. -/
def RunRes.result : RunRes → Option String
  | .done _ r => some r
  | .exn _ _ => none
  | .fuelOut _ => none

/-! ## Lemmas and claim theorems -/

lemma strLen_append (a b : String) : (a ++ b).length = a.length + b.length := by
  cases a; cases b; simp [String.length, String.append]

lemma strLen_mk (l : List Char) : (String.mk l).length = l.length := rfl

/-- Inner-loop monotonicity: summaries and calls only grow; the remaining
queue only loses a front segment. -/
lemma inner_mono (oracle : Oracle) :
    ∀ fuel s num,
      s.summaries <+: (innerLoop oracle fuel s num).state.summaries ∧
      (innerLoop oracle fuel s num).state.batch_articles <:+ s.batch_articles ∧
      s.calls <+: (innerLoop oracle fuel s num).state.calls := by
  intro fuel
  induction fuel with
  | zero =>
    intro s num
    simp [innerLoop, InnerRes.state]
  | succ n ih =>
    intro s num
    rw [innerLoop]
    by_cases hnum : num = 0
    · simp [hnum, InnerRes.state]
    · simp only [if_neg hnum]
      split
      · -- budget fits
        split
        · -- success
          exact ⟨List.prefix_append _ _, List.drop_suffix _ _, List.prefix_append _ _⟩
        · -- apiError
          split
          · -- rate limit
            split
            · split
              · -- parsed wait time: recurse at same num
                rename_i q hF
                have H := ih ⟨s.batch_articles, s.summaries, s.k + 1, s.calls ++ [(num, renderBatch (List.take num s.batch_articles))], s.succs, s.sleeps ++ [q.addOne]⟩ num
                exact ⟨H.1, H.2.1, (List.prefix_append _ _).trans H.2.2⟩
              · -- float ValueError leaf
                exact ⟨List.prefix_rfl, List.suffix_rfl, List.prefix_append _ _⟩
            · -- default 60: recurse at same num
              have H := ih ⟨s.batch_articles, s.summaries, s.k + 1, s.calls ++ [(num, renderBatch (List.take num s.batch_articles))], s.succs, s.sleeps ++ [(⟨60, 0⟩ : Dec)]⟩ num
              exact ⟨H.1, H.2.1, (List.prefix_append _ _).trans H.2.2⟩
          · split
            · -- context length: recurse at num - 1
              have H := ih ⟨s.batch_articles, s.summaries, s.k + 1, s.calls ++ [(num, renderBatch (List.take num s.batch_articles))], s.succs, s.sleeps⟩ (num - 1)
              exact ⟨H.1, H.2.1, (List.prefix_append _ _).trans H.2.2⟩
            · -- other error leaf
              exact ⟨List.prefix_rfl, List.suffix_rfl, List.prefix_append _ _⟩
      · -- over budget: recurse at num - 1
        exact ih s (num - 1)

/-- A successful inner loop removed exactly one batch (of its successful
size `m`, `0 < m ≤` the starting candidate size) from the front of the
queue, appended exactly one summary, and recorded the success. -/
lemma inner_broke (oracle : Oracle) :
    ∀ fuel s num s', innerLoop oracle fuel s num = .broke s' →
      ∃ m t, 0 < m ∧ m ≤ num ∧
        s'.batch_articles = s.batch_articles.drop m ∧
        s'.summaries = s.summaries ++ [t] ∧
        s'.succs = s.succs ++ [m] := by
  intro fuel
  induction fuel with
  | zero =>
    intro s num s' h
    exact InnerRes.noConfusion h
  | succ n ih =>
    intro s num s' h
    rw [innerLoop] at h
    by_cases hnum : num = 0
    · rw [if_pos hnum] at h
      exact InnerRes.noConfusion h
    · simp only [if_neg hnum] at h
      revert h
      split
      · -- budget fits
        split
        · -- success
          intro h
          cases h
          exact ⟨num, _, Nat.pos_of_ne_zero hnum, le_refl num, rfl, rfl, rfl⟩
        · -- apiError
          split
          · split
            · split
              · -- parsed wait: recurse, same num
                rename_i q hF
                intro h
                exact ih ⟨s.batch_articles, s.summaries, s.k + 1, s.calls ++ [(num, renderBatch (List.take num s.batch_articles))], s.succs, s.sleeps ++ [q.addOne]⟩ num s' h
              · intro h
                exact InnerRes.noConfusion h
            · -- default wait: recurse, same num
              intro h
              exact ih ⟨s.batch_articles, s.summaries, s.k + 1, s.calls ++ [(num, renderBatch (List.take num s.batch_articles))], s.succs, s.sleeps ++ [(⟨60, 0⟩ : Dec)]⟩ num s' h
          · split
            · -- context length: recurse at num - 1
              intro h
              rcases ih ⟨s.batch_articles, s.summaries, s.k + 1, s.calls ++ [(num, renderBatch (List.take num s.batch_articles))], s.succs, s.sleeps⟩ (num - 1) s' h with ⟨m, t, hm, hle, h1, h2, h3⟩
              exact ⟨m, t, hm, hle.trans (Nat.sub_le _ _), h1, h2, h3⟩
            · intro h
              exact InnerRes.noConfusion h
      · -- over budget: recurse at num - 1
        intro h
        rcases ih s (num - 1) s' h with ⟨m, t, hm, hle, h1, h2, h3⟩
        exact ⟨m, t, hm, hle.trans (Nat.sub_le _ _), h1, h2, h3⟩

/-- Whole-run monotonicity. -/
lemma outer_mono (oracle : Oracle) :
    ∀ fuel s,
      s.summaries <+: (outerLoop oracle fuel s).state.summaries ∧
      (outerLoop oracle fuel s).state.batch_articles <:+ s.batch_articles ∧
      s.calls <+: (outerLoop oracle fuel s).state.calls := by
  intro fuel
  induction fuel with
  | zero =>
    intro s
    simp [outerLoop, RunRes.state]
  | succ n ih =>
    intro s
    rw [outerLoop]
    by_cases hbe : s.batch_articles.isEmpty = true
    · simp [hbe, RunRes.state]
    · simp only [if_neg hbe]
      split
      · -- broke: continue the outer loop
        rename_i s' heq
        have Hi := inner_mono oracle n s s.batch_articles.length
        rw [heq] at Hi
        have Ho := ih s'
        exact ⟨Hi.1.trans Ho.1, Ho.2.1.trans Hi.2.1, Hi.2.2.trans Ho.2.2⟩
      · rename_i s' heq
        have Hi := inner_mono oracle n s s.batch_articles.length
        rw [heq] at Hi
        exact Hi
      · rename_i s' heq
        have Hi := inner_mono oracle n s s.batch_articles.length
        rw [heq] at Hi
        exact Hi
      · rename_i s' e heq
        have Hi := inner_mono oracle n s s.batch_articles.length
        rw [heq] at Hi
        exact Hi
      · rename_i s' heq
        have Hi := inner_mono oracle n s s.batch_articles.length
        rw [heq] at Hi
        exact Hi

/-- A normally-returned result is the double-newline join of the final
summaries. -/
lemma outer_done_result (oracle : Oracle) :
    ∀ fuel s s' r, outerLoop oracle fuel s = .done s' r →
      r = pyJoin "\n\n" s'.summaries := by
  intro fuel
  induction fuel with
  | zero =>
    intro s s' r h
    exact RunRes.noConfusion h
  | succ n ih =>
    intro s s' r h
    rw [outerLoop] at h
    by_cases hbe : s.batch_articles.isEmpty = true
    · rw [if_pos hbe] at h
      cases h
      rfl
    · simp only [if_neg hbe] at h
      revert h
      split
      · intro h
        exact ih _ s' r h
      · intro h
        cases h
        rfl
      · intro h
        cases h
        rfl
      · intro h
        exact RunRes.noConfusion h
      · intro h
        exact RunRes.noConfusion h

/-- Over-budget estimate: the candidate size shrinks by exactly one and the
loop retries — no model call, no sleep, no state change. -/
lemma step_overBudget (oracle : Oracle) (fuel : Nat) (s : RState) (num : Nat)
    (hnum : num ≠ 0)
    (h : ¬ (input_tokens (renderBatch (s.batch_articles.take num)) + max_output_tokens
      ≤ min max_model_tokens max_tokens_per_minute)) :
    innerLoop oracle (fuel + 1) s num = innerLoop oracle fuel s (num - 1) := by
  rw [innerLoop]
  simp only [if_neg hnum, if_neg h]

/-- A fitting batch is submitted; on success the summary is appended and
exactly this batch is dropped from the front of the queue. -/
lemma step_success (oracle : Oracle) (fuel : Nat) (s : RState) (num : Nat) (text : String)
    (hnum : num ≠ 0)
    (hfit : input_tokens (renderBatch (s.batch_articles.take num)) + max_output_tokens
      ≤ min max_model_tokens max_tokens_per_minute)
    (hO : oracle s.k (promptPre ++ renderBatch (s.batch_articles.take num)) = .success text) :
    innerLoop oracle (fuel + 1) s num =
      .broke ⟨s.batch_articles.drop num, s.summaries ++ [pyStrip text], s.k + 1,
        s.calls ++ [(num, renderBatch (s.batch_articles.take num))], s.succs ++ [num], s.sleeps⟩ := by
  rw [innerLoop]
  simp only [if_neg hnum, if_pos hfit, hO]

/-- Rate-limit error with a parsable wait time: sleep `q + 1` seconds and
retry the same candidate size on the same queue. -/
lemma step_rateLimit (oracle : Oracle) (fuel : Nat) (s : RState) (num : Nat)
    (msg : String) (g : List Char) (q : Dec)
    (hnum : num ≠ 0)
    (hfit : input_tokens (renderBatch (s.batch_articles.take num)) + max_output_tokens
      ≤ min max_model_tokens max_tokens_per_minute)
    (hO : oracle s.k (promptPre ++ renderBatch (s.batch_articles.take num)) = .apiError msg)
    (hRL : strContains msg "rate_limit_exceeded" = true)
    (hG : findWaitGroup msg.data = some g)
    (hF : pyFloat g = some q) :
    innerLoop oracle (fuel + 1) s num =
      innerLoop oracle fuel ⟨s.batch_articles, s.summaries, s.k + 1,
        s.calls ++ [(num, renderBatch (s.batch_articles.take num))], s.succs,
        s.sleeps ++ [q.addOne]⟩ num := by
  rw [innerLoop]
  simp only [if_neg hnum, if_pos hfit, hO, hRL, if_true, hG, hF]

/-- Rate-limit error whose message has no parsable wait time: sleep a flat
60 seconds (no added margin) and retry the same candidate size. -/
lemma step_rateLimitDefault (oracle : Oracle) (fuel : Nat) (s : RState) (num : Nat)
    (msg : String)
    (hnum : num ≠ 0)
    (hfit : input_tokens (renderBatch (s.batch_articles.take num)) + max_output_tokens
      ≤ min max_model_tokens max_tokens_per_minute)
    (hO : oracle s.k (promptPre ++ renderBatch (s.batch_articles.take num)) = .apiError msg)
    (hRL : strContains msg "rate_limit_exceeded" = true)
    (hG : findWaitGroup msg.data = none) :
    innerLoop oracle (fuel + 1) s num =
      innerLoop oracle fuel ⟨s.batch_articles, s.summaries, s.k + 1,
        s.calls ++ [(num, renderBatch (s.batch_articles.take num))], s.succs,
        s.sleeps ++ [(⟨60, 0⟩ : Dec)]⟩ num := by
  rw [innerLoop]
  simp only [if_neg hnum, if_pos hfit, hO, hRL, if_true, hG]

/-- Context-length rejection by the model: the candidate size shrinks by
exactly one and the loop retries on the same queue. -/
lemma step_context (oracle : Oracle) (fuel : Nat) (s : RState) (num : Nat)
    (msg : String)
    (hnum : num ≠ 0)
    (hfit : input_tokens (renderBatch (s.batch_articles.take num)) + max_output_tokens
      ≤ min max_model_tokens max_tokens_per_minute)
    (hO : oracle s.k (promptPre ++ renderBatch (s.batch_articles.take num)) = .apiError msg)
    (hRL : strContains msg "rate_limit_exceeded" = false)
    (hCL : (strContains msg "context_length_exceeded"
      || strContains msg "Please reduce the length of the messages or completion") = true) :
    innerLoop oracle (fuel + 1) s num =
      innerLoop oracle fuel ⟨s.batch_articles, s.summaries, s.k + 1,
        s.calls ++ [(num, renderBatch (s.batch_articles.take num))], s.succs, s.sleeps⟩
        (num - 1) := by
  rw [innerLoop]
  simp only [if_neg hnum, if_pos hfit, hO, hRL, hCL, if_true, Bool.false_eq_true, if_false]

/-- Any other API error: the inner loop returns at once with the summaries
accumulated so far. -/
lemma step_other (oracle : Oracle) (fuel : Nat) (s : RState) (num : Nat)
    (msg : String)
    (hnum : num ≠ 0)
    (hfit : input_tokens (renderBatch (s.batch_articles.take num)) + max_output_tokens
      ≤ min max_model_tokens max_tokens_per_minute)
    (hO : oracle s.k (promptPre ++ renderBatch (s.batch_articles.take num)) = .apiError msg)
    (hRL : strContains msg "rate_limit_exceeded" = false)
    (hCL : (strContains msg "context_length_exceeded"
      || strContains msg "Please reduce the length of the messages or completion") = false) :
    innerLoop oracle (fuel + 1) s num =
      .ret ⟨s.batch_articles, s.summaries, s.k + 1,
        s.calls ++ [(num, renderBatch (s.batch_articles.take num))], s.succs, s.sleeps⟩ := by
  rw [innerLoop]
  simp only [if_neg hnum, if_pos hfit, hO, hRL, hCL, Bool.false_eq_true, if_false]

/-- Every submitted batch was within the local token budget. -/
lemma inner_calls_fit (oracle : Oracle) :
    ∀ fuel s num, (∀ c ∈ s.calls, fitsBudget c.2) →
      ∀ c ∈ (innerLoop oracle fuel s num).state.calls, fitsBudget c.2 := by
  intro fuel
  induction fuel with
  | zero =>
    intro s num hs
    simpa [innerLoop, InnerRes.state] using hs
  | succ n ih =>
    intro s num hs
    rw [innerLoop]
    by_cases hnum : num = 0
    · simpa [hnum, InnerRes.state] using hs
    · simp only [if_neg hnum]
      split
      · -- budget fits
        rename_i hfit
        have hs' : ∀ c ∈ s.calls ++ [(num, renderBatch (List.take num s.batch_articles))],
            fitsBudget c.2 := by
          intro c hc
          rcases List.mem_append.mp hc with hold | hnew
          · exact hs c hold
          · rcases List.mem_singleton.mp hnew with rfl
            exact hfit
        split
        · -- success
          exact hs'
        · -- apiError
          split
          · split
            · split
              · rename_i q hF
                exact ih ⟨s.batch_articles, s.summaries, s.k + 1, s.calls ++ [(num, renderBatch (List.take num s.batch_articles))], s.succs, s.sleeps ++ [q.addOne]⟩ num hs'
              · exact hs'
            · exact ih ⟨s.batch_articles, s.summaries, s.k + 1, s.calls ++ [(num, renderBatch (List.take num s.batch_articles))], s.succs, s.sleeps ++ [(⟨60, 0⟩ : Dec)]⟩ num hs'
          · split
            · exact ih ⟨s.batch_articles, s.summaries, s.k + 1, s.calls ++ [(num, renderBatch (List.take num s.batch_articles))], s.succs, s.sleeps⟩ (num - 1) hs'
            · exact hs'
      · exact ih s (num - 1) hs

/-- Every batch submitted over a whole run was within the local budget. -/
lemma outer_calls_fit (oracle : Oracle) :
    ∀ fuel s, (∀ c ∈ s.calls, fitsBudget c.2) →
      ∀ c ∈ (outerLoop oracle fuel s).state.calls, fitsBudget c.2 := by
  intro fuel
  induction fuel with
  | zero =>
    intro s hs
    simpa [outerLoop, RunRes.state] using hs
  | succ n ih =>
    intro s hs
    rw [outerLoop]
    by_cases hbe : s.batch_articles.isEmpty = true
    · simpa [hbe, RunRes.state] using hs
    · simp only [if_neg hbe]
      have Hi := inner_calls_fit oracle n s s.batch_articles.length hs
      split
      · rename_i s' heq
        rw [heq] at Hi
        exact ih s' Hi
      · rename_i s' heq
        rw [heq] at Hi
        exact Hi
      · rename_i s' heq
        rw [heq] at Hi
        exact Hi
      · rename_i s' e heq
        rw [heq] at Hi
        exact Hi
      · rename_i s' heq
        rw [heq] at Hi
        exact Hi

/-- Under a well-formed oracle the inner loop raises no exception. -/
lemma inner_no_exn (oracle : Oracle) (hwf : WFOracle oracle) :
    ∀ fuel s num s' e, innerLoop oracle fuel s num ≠ .exn s' e := by
  intro fuel
  induction fuel with
  | zero =>
    intro s num s' e h
    exact InnerRes.noConfusion h
  | succ n ih =>
    intro s num s' e h
    rw [innerLoop] at h
    by_cases hnum : num = 0
    · rw [if_pos hnum] at h
      exact InnerRes.noConfusion h
    · simp only [if_neg hnum] at h
      revert h
      split
      · split
        · intro h
          exact InnerRes.noConfusion h
        · split
          · split
            · split
              · rename_i q hF
                intro h
                exact ih ⟨s.batch_articles, s.summaries, s.k + 1, s.calls ++ [(num, renderBatch (List.take num s.batch_articles))], s.succs, s.sleeps ++ [q.addOne]⟩ num s' e h
              · rename_i msg hO hRL xo g hG xd hF
                intro h
                exact absurd hF (hwf _ _ _ g hO hRL hG)
            · intro h
              exact ih ⟨s.batch_articles, s.summaries, s.k + 1, s.calls ++ [(num, renderBatch (List.take num s.batch_articles))], s.succs, s.sleeps ++ [(⟨60, 0⟩ : Dec)]⟩ num s' e h
          · split
            · intro h
              exact ih ⟨s.batch_articles, s.summaries, s.k + 1, s.calls ++ [(num, renderBatch (List.take num s.batch_articles))], s.succs, s.sleeps⟩ (num - 1) s' e h
            · intro h
              exact InnerRes.noConfusion h
      · intro h
        exact ih s (num - 1) s' e h

/-- Under a well-formed oracle the whole run raises no exception. -/
lemma outer_no_exn (oracle : Oracle) (hwf : WFOracle oracle) :
    ∀ fuel s s' e, outerLoop oracle fuel s ≠ .exn s' e := by
  intro fuel
  induction fuel with
  | zero =>
    intro s s' e h
    exact RunRes.noConfusion h
  | succ n ih =>
    intro s s' e h
    rw [outerLoop] at h
    by_cases hbe : s.batch_articles.isEmpty = true
    · rw [if_pos hbe] at h
      exact RunRes.noConfusion h
    · simp only [if_neg hbe] at h
      revert h
      split
      · intro h
        exact ih _ s' e h
      · intro h
        exact RunRes.noConfusion h
      · intro h
        exact RunRes.noConfusion h
      · rename_i s0 e0 heq
        intro h
        exact absurd heq (inner_no_exn oracle hwf n s _ s0 e0)
      · intro h
        exact RunRes.noConfusion h

/-- Under a well-formed oracle `summarize_articles` raises no exception. -/
lemma summarize_no_exn (oracle : Oracle) (hwf : WFOracle oracle)
    (fuel : Nat) (articles : List Article) :
    ∀ s' e, summarize_articles oracle fuel articles ≠ .exn s' e := by
  intro s' e
  exact outer_no_exn oracle hwf fuel _ s' e

/-- Reading an index that exists in `h` is unchanged in any extension. -/
lemma Heap.read_of_prefix {h h' : Heap} (hp : h.cells <+: h'.cells)
    (r : Nat) (hr : r < h.cells.length) : h'.read r = h.read r := by
  rcases hp with ⟨t, ht⟩
  unfold Heap.read
  rw [← ht]
  simp only [List.getD, List.get?_eq_getElem?]
  rw [List.getElem?_append_left hr]

/-- The heap-level inner loop only allocates: the store grows by a suffix. -/
lemma innerH_extends (oracle : Oracle) :
    ∀ fuel s num, s.heap.cells <+: ((innerLoopH oracle fuel s num).hstate).heap.cells := by
  intro fuel
  induction fuel with
  | zero =>
    intro s num
    simp [innerLoopH, InnerResH.hstate]
  | succ n ih =>
    intro s num
    rw [innerLoopH]
    by_cases hnum : num = 0
    · simp [hnum, InnerResH.hstate]
    · simp only [if_neg hnum]
      split
      · -- budget fits
        split
        · -- success: two allocations
          exact (List.prefix_append _ _).trans (List.prefix_append _ _)
        · -- apiError
          split
          · split
            · split
              · exact (List.prefix_append _ _).trans (ih ⟨⟨s.heap.cells ++ [(s.heap.read s.batchRef).take num]⟩, s.batchRef, s.summaries, s.k + 1⟩ num)
              · exact List.prefix_append _ _
            · exact (List.prefix_append _ _).trans (ih ⟨⟨s.heap.cells ++ [(s.heap.read s.batchRef).take num]⟩, s.batchRef, s.summaries, s.k + 1⟩ num)
          · split
            · exact (List.prefix_append _ _).trans (ih ⟨⟨s.heap.cells ++ [(s.heap.read s.batchRef).take num]⟩, s.batchRef, s.summaries, s.k + 1⟩ (num - 1))
            · exact List.prefix_append _ _
      · -- over budget: the slice was still allocated
        exact (List.prefix_append _ _).trans (ih ⟨⟨s.heap.cells ++ [(s.heap.read s.batchRef).take num]⟩, s.batchRef, s.summaries, s.k⟩ (num - 1))

/-- The heap-level outer loop only allocates. -/
lemma outerH_extends (oracle : Oracle) :
    ∀ fuel s, s.heap.cells <+: ((outerLoopH oracle fuel s).hstate).heap.cells := by
  intro fuel
  induction fuel with
  | zero =>
    intro s
    simp [outerLoopH, HRunRes.hstate]
  | succ n ih =>
    intro s
    rw [outerLoopH]
    by_cases hbe : (s.heap.read s.batchRef).isEmpty = true
    · simp [hbe, HRunRes.hstate]
    · simp only [if_neg hbe]
      split
      · rename_i s' heq
        have Hi := innerH_extends oracle n s (s.heap.read s.batchRef).length
        rw [heq] at Hi
        exact Hi.trans (ih s')
      · rename_i s' heq
        have Hi := innerH_extends oracle n s (s.heap.read s.batchRef).length
        rw [heq] at Hi
        exact Hi
      · rename_i s' heq
        have Hi := innerH_extends oracle n s (s.heap.read s.batchRef).length
        rw [heq] at Hi
        exact Hi
      · rename_i s' e heq
        have Hi := innerH_extends oracle n s (s.heap.read s.batchRef).length
        rw [heq] at Hi
        exact Hi
      · rename_i s' heq
        have Hi := innerH_extends oracle n s (s.heap.read s.batchRef).length
        rw [heq] at Hi
        exact Hi

/-- C10: `summarize_articles` never mutates its argument — after a run over
the object store, every pre-existing list object, in particular the one the
argument references, holds exactly the articles it held before the call. -/
theorem c10_theorem (oracle : Oracle) (fuel : Nat) (h : Heap) (r : Nat)
    (hr : r < h.cells.length) :
    ((summarize_articlesH oracle fuel h r).hstate).heap.read r = h.read r := by
  have h1 : h.cells <+: (h.alloc (h.read r)).2.cells := List.prefix_append _ _
  have h2 := outerH_extends oracle fuel
    ⟨(h.alloc (h.read r)).2, (h.alloc (h.read r)).1, [], 0⟩
  exact Heap.read_of_prefix (h1.trans h2) r hr

/-- C10 witness: a concrete one-article store is unchanged by a run. -/
theorem c10_witness :
    ((summarize_articlesH okOracle 5 ⟨[[tA]]⟩ 0).hstate).heap.read 0 = [tA] :=
  (c10_theorem okOracle 5 ⟨[[tA]]⟩ 0 (by decide)).trans (by decide)

/-- C9 (amended): a missing (unset) `APP_PASSWORD` never matches any
entered password, but an *empty* configured password matches exactly the
empty entered string — the gate then grants access on empty input. -/
theorem c9_theorem :
    (∀ p, gate_matches Option.none p = false) ∧
    (∀ p, gate_matches (some "") p = true ↔ p = "") ∧
    gate_matches (some "") "" = true := by
  refine ⟨fun p => rfl, fun p => ?_, rfl⟩
  constructor
  · intro h
    simpa [gate_matches] using h
  · intro h
    simp [gate_matches, h]

/-- C9 counterexample: the claim "empty *or* missing configured password
blocks every entered password" fails — the empty configured password
accepts the empty entered password. -/
theorem c9_counterexample :
    ¬ (∀ cfg : Option String, (cfg = Option.none ∨ cfg = some "") →
        ∀ p, gate_matches cfg p = false) := by
  intro H
  have := H (some "") (Or.inr rfl) ""
  simp [gate_matches] at this

lemma xs_len (n : Nat) : (xs n).length = n := by
  simp [xs, strLen_mk]

lemma big_len : (renderBatch [bigArticle]).length = 25955 := by
  show (pyTake "T" 80 ++ " (Link: " ++ xs 25945 ++ ")").length = 25955
  rw [strLen_append, strLen_append, strLen_append, xs_len]
  decide

lemma huge_len : (renderBatch [hugeArticle]).length = 30010 := by
  show (pyTake "T" 80 ++ " (Link: " ++ xs 30000 ++ ")").length = 30010
  rw [strLen_append, strLen_append, strLen_append, xs_len]
  decide

lemma input_tokens_eq (s : String) : input_tokens s = s.length / 4 := rfl

lemma take_one : List.take 1 ([bigArticle] : List Article) = [bigArticle] := rfl

lemma big_round : ¬ (specEstimate (renderBatch [bigArticle])
    + (max_output_tokens : ℤ) ≤ (min max_model_tokens max_tokens_per_minute : ℤ)) := by
  unfold specEstimate max_output_tokens max_model_tokens max_tokens_per_minute
  rw [big_len]
  norm_num [round_eq]

lemma big_fit : input_tokens (renderBatch [bigArticle])
    + max_output_tokens ≤ min max_model_tokens max_tokens_per_minute := by
  rw [input_tokens_eq, big_len]
  decide

/-- `step_success` with the rendered prompt body abstracted, so that large
prompt bodies can be handled by rewriting instead of unification. -/
lemma step_success_si (oracle : Oracle) (fuel : Nat) (s : RState) (num : Nat)
    (text si : String)
    (hsi : renderBatch (s.batch_articles.take num) = si)
    (hnum : num ≠ 0)
    (hfit : input_tokens si + max_output_tokens ≤ min max_model_tokens max_tokens_per_minute)
    (hO : oracle s.k (promptPre ++ si) = .success text) :
    innerLoop oracle (fuel + 1) s num =
      .broke ⟨s.batch_articles.drop num, s.summaries ++ [pyStrip text], s.k + 1,
        s.calls ++ [(num, si)], s.succs ++ [num], s.sleeps⟩ := by
  subst hsi
  exact step_success oracle fuel s num text hnum hfit hO

lemma c1proj : RState.batch_articles c1state = [bigArticle] := rfl

/-- The source submits the 25955-character prompt body (floor estimate
6488, and 6488 + 512 = 7000 fits) in a single call and succeeds. -/
lemma c1run : summarize_articles okOracle 5 [bigArticle] = .done c1done "S" := by
  have hstep : innerLoop okOracle 4 c1state 1 = _ :=
    step_success_si okOracle 3 c1state 1 "S" (renderBatch [bigArticle])
      (by rw [c1proj, take_one]) (by decide) big_fit rfl
  rw [show RState.batch_articles c1state = [bigArticle] from rfl,
    show RState.summaries c1state = [] from rfl,
    show RState.k c1state = 0 from rfl,
    show RState.calls c1state = [] from rfl,
    show RState.succs c1state = [] from rfl,
    show RState.sleeps c1state = [] from rfl,
    show List.drop 1 ([bigArticle] : List Article) = [] from rfl] at hstep
  show outerLoop okOracle (4 + 1) c1state = _
  rw [outerLoop, c1proj]
  rw [if_neg (by decide : ¬ (([bigArticle] : List Article).isEmpty = true))]
  rw [show List.length ([bigArticle] : List Article) = 1 from rfl]
  rw [hstep]
  rfl

/-- C1 counterexample: the run submits the batch whose prompt body has
25955 characters (the floor estimate 6488 gives 6488 + 512 = 7000, within
budget), yet the claim's rounded estimate is 6489, giving 6489 + 512 =
7001 > 7000 — so "submitted if and only if round(len/4) + 512 fits" is
false of this input. -/
theorem c1_counterexample :
    (summarize_articles okOracle 5 [bigArticle]).state.calls
        = [(1, renderBatch [bigArticle])] ∧
    ¬ (specEstimate (renderBatch [bigArticle]) + (max_output_tokens : ℤ)
        ≤ (min max_model_tokens max_tokens_per_minute : ℤ)) := by
  refine ⟨?_, big_round⟩
  rw [c1run]
  rfl

/-- C1 (amended): the input-token estimate is the truncation
`int(len(promptBody) * 0.25) = len / 4` — not rounding to nearest — and a
candidate batch is submitted iff `len / 4 + 512 ≤ min(8192, 7000) = 7000`:
every submitted call satisfies this bound, and an over-budget candidate
shrinks `candidateSize` by exactly one and retries with no model call. -/
theorem c1_theorem :
    (∀ s : String, fitsBudget s ↔ s.length / 4 + 512 ≤ 7000) ∧
    (∀ (oracle : Oracle) (fuel : Nat) (articles : List Article),
      ∀ c ∈ (summarize_articles oracle fuel articles).state.calls, fitsBudget c.2) ∧
    (∀ (oracle : Oracle) (fuel : Nat) (s : RState) (num : Nat), num ≠ 0 →
      ¬ fitsBudget (renderBatch (s.batch_articles.take num)) →
      innerLoop oracle (fuel + 1) s num = innerLoop oracle fuel s (num - 1)) := by
  refine ⟨fun s => Iff.rfl, ?_, ?_⟩
  · intro oracle fuel articles c hc
    exact outer_calls_fit oracle fuel ⟨articles, [], 0, [], [], []⟩ (by simp) c hc
  · intro oracle fuel s num hnum hover
    exact step_overBudget oracle fuel s num hnum hover

/-- C1 witness: a call recorded in a concrete run fits the budget, and a
concrete over-budget single-article candidate is shrunk without any model
call. -/
theorem c1_theorem_witness :
    fitsBudget (renderBatch [tA]) ∧
    innerLoop okOracle 1 ⟨[hugeArticle], [], 0, [], [], []⟩ 1 =
      innerLoop okOracle 0 ⟨[hugeArticle], [], 0, [], [], []⟩ 0 := by
  constructor
  · exact c1_theorem.2.1 okOracle 5 [tA] (1, renderBatch [tA]) (by decide)
  · refine c1_theorem.2.2 okOracle 0 ⟨[hugeArticle], [], 0, [], [], []⟩ 1 (by decide) ?_
    intro hfit
    rw [show List.take 1 (RState.batch_articles ⟨[hugeArticle], [], 0, [], [], []⟩)
        = [hugeArticle] from rfl] at hfit
    rw [c1_theorem.1, huge_len] at hfit
    revert hfit
    decide

/-- C2 counterexample: on a rate-limit message with no parsable wait time
the source sleeps a flat 60 seconds, not the claimed 60 + 1. -/
theorem c2_counterexample :
    (summarize_articles rlNoTimeOracle 10 [tA]).state.sleeps = [⟨60, 0⟩] ∧
    claimedSleep "rate_limit_exceeded" = ⟨61, 0⟩ ∧
    (summarize_articles rlNoTimeOracle 10 [tA]).state.sleeps
      ≠ [claimedSleep "rate_limit_exceeded"] := by
  refine ⟨by decide, by decide, by decide⟩

/-- C2 (amended): on a rate-limit error the wait time is regex-extracted
from the message; when it parses as `q`, the loop sleeps `q + 1` seconds;
when it does not parse, the loop sleeps a flat 60 seconds (no margin).  In
both cases it retries the same `candidateSize` on the same queue with the
same accumulated summaries — no shrink, no article loss — so a single
transient rate-limit error yields the same final output as an immediately
successful call, only delayed. -/
theorem c2_theorem :
    (∀ (oracle : Oracle) (fuel : Nat) (s : RState) (num : Nat) (msg : String)
        (g : List Char) (q : Dec), num ≠ 0 →
      input_tokens (renderBatch (s.batch_articles.take num)) + max_output_tokens
        ≤ min max_model_tokens max_tokens_per_minute →
      oracle s.k (promptPre ++ renderBatch (s.batch_articles.take num)) = .apiError msg →
      strContains msg "rate_limit_exceeded" = true →
      findWaitGroup msg.data = some g → pyFloat g = some q →
      innerLoop oracle (fuel + 1) s num =
        innerLoop oracle fuel ⟨s.batch_articles, s.summaries, s.k + 1,
          s.calls ++ [(num, renderBatch (s.batch_articles.take num))], s.succs,
          s.sleeps ++ [q.addOne]⟩ num) ∧
    (∀ (oracle : Oracle) (fuel : Nat) (s : RState) (num : Nat) (msg : String), num ≠ 0 →
      input_tokens (renderBatch (s.batch_articles.take num)) + max_output_tokens
        ≤ min max_model_tokens max_tokens_per_minute →
      oracle s.k (promptPre ++ renderBatch (s.batch_articles.take num)) = .apiError msg →
      strContains msg "rate_limit_exceeded" = true →
      findWaitGroup msg.data = none →
      innerLoop oracle (fuel + 1) s num =
        innerLoop oracle fuel ⟨s.batch_articles, s.summaries, s.k + 1,
          s.calls ++ [(num, renderBatch (s.batch_articles.take num))], s.succs,
          s.sleeps ++ [(⟨60, 0⟩ : Dec)]⟩ num) ∧
    (RunRes.result (summarize_articles rlOnceOracle 10 [tA, tB])
        = RunRes.result (summarize_articles okOracle 10 [tA, tB]) ∧
      (summarize_articles rlOnceOracle 10 [tA, tB]).state.summaries
        = (summarize_articles okOracle 10 [tA, tB]).state.summaries ∧
      (summarize_articles rlOnceOracle 10 [tA, tB]).state.calls.map Prod.fst = [2, 2] ∧
      (summarize_articles rlOnceOracle 10 [tA, tB]).state.succs = [2] ∧
      (summarize_articles rlOnceOracle 10 [tA, tB]).state.sleeps = [⟨3, 0⟩]) := by
  refine ⟨?_, ?_, by decide, by decide, by decide, by decide, by decide⟩
  · intro oracle fuel s num msg g q hnum hfit hO hRL hG hF
    exact step_rateLimit oracle fuel s num msg g q hnum hfit hO hRL hG hF
  · intro oracle fuel s num msg hnum hfit hO hRL hG
    exact step_rateLimitDefault oracle fuel s num msg hnum hfit hO hRL hG

/-- C2 witness: both rate-limit branches exercised at a concrete state. -/
theorem c2_theorem_witness :
    innerLoop rlOnceOracle 1 ⟨[tA, tB], [], 0, [], [], []⟩ 2 =
      innerLoop rlOnceOracle 0 ⟨[tA, tB], [], 1,
        [(2, renderBatch [tA, tB])], [], [Dec.addOne ⟨2, 0⟩]⟩ 2 ∧
    innerLoop rlNoTimeOracle 1 ⟨[tA], [], 0, [], [], []⟩ 1 =
      innerLoop rlNoTimeOracle 0 ⟨[tA], [], 1, [(1, renderBatch [tA])], [], [⟨60, 0⟩]⟩ 1 := by
  constructor
  · have h := c2_theorem.1 rlOnceOracle 0 ⟨[tA, tB], [], 0, [], [], []⟩ 2
      "Error code: 429 - rate_limit_exceeded: Please try again in 2s." ['2'] ⟨2, 0⟩
      (by decide) (by decide) (by decide) (by decide) (by decide) (by decide)
    exact h
  · have h := c2_theorem.2.1 rlNoTimeOracle 0 ⟨[tA], [], 0, [], [], []⟩ 1
      "rate_limit_exceeded" (by decide) (by decide) (by decide) (by decide) (by decide)
    exact h

/-- C3: a context-length-exceeded rejection decrements `candidateSize` by
exactly one and retries on the same queue with the same summaries; with a
stub rejecting every multi-article prompt, five articles are summarized in
exactly five successful single-article batches whose five summaries are
concatenated into the result. -/
theorem c3_theorem :
    (∀ (oracle : Oracle) (fuel : Nat) (s : RState) (num : Nat) (msg : String), num ≠ 0 →
      input_tokens (renderBatch (s.batch_articles.take num)) + max_output_tokens
        ≤ min max_model_tokens max_tokens_per_minute →
      oracle s.k (promptPre ++ renderBatch (s.batch_articles.take num)) = .apiError msg →
      strContains msg "rate_limit_exceeded" = false →
      (strContains msg "context_length_exceeded"
        || strContains msg "Please reduce the length of the messages or completion") = true →
      innerLoop oracle (fuel + 1) s num =
        innerLoop oracle fuel ⟨s.batch_articles, s.summaries, s.k + 1,
          s.calls ++ [(num, renderBatch (s.batch_articles.take num))], s.succs, s.sleeps⟩
          (num - 1)) ∧
    ((summarize_articles sizeStub 40 fiveArticles).state.succs = [1, 1, 1, 1, 1] ∧
      (summarize_articles sizeStub 40 fiveArticles).state.summaries
        = ["S", "S", "S", "S", "S"] ∧
      RunRes.result (summarize_articles sizeStub 40 fiveArticles)
        = some "S\n\nS\n\nS\n\nS\n\nS" ∧
      (summarize_articles sizeStub 40 fiveArticles).state.calls.map Prod.fst
        = [5, 4, 3, 2, 1, 4, 3, 2, 1, 3, 2, 1, 2, 1, 1]) := by
  refine ⟨?_, by decide, by decide, by decide, by decide⟩
  intro oracle fuel s num msg hnum hfit hO hRL hCL
  exact step_context oracle fuel s num msg hnum hfit hO hRL hCL

/-- C3 witness: the shrink step at a concrete state and message. -/
theorem c3_theorem_witness :
    innerLoop sizeStub 1 ⟨[tA, tB], [], 0, [], [], []⟩ 2 =
      innerLoop sizeStub 0 ⟨[tA, tB], [], 1, [(2, renderBatch [tA, tB])], [], []⟩ 1 := by
  have h := c3_theorem.1 sizeStub 0 ⟨[tA, tB], [], 0, [], [], []⟩ 2
    "context_length_exceeded" (by decide) (by decide) (by decide) (by decide) (by decide)
  exact h

/-- C4: an API error that is neither rate-limit nor context-length makes
the inner loop return at once with the summaries accumulated so far, and
the function returns them joined by a blank line; concretely, when the
first batch succeeded with "A" and the second batch hits such an error, the
returned string is exactly "A" with no error text. -/
theorem c4_theorem :
    (∀ (oracle : Oracle) (fuel : Nat) (s : RState) (num : Nat) (msg : String), num ≠ 0 →
      input_tokens (renderBatch (s.batch_articles.take num)) + max_output_tokens
        ≤ min max_model_tokens max_tokens_per_minute →
      oracle s.k (promptPre ++ renderBatch (s.batch_articles.take num)) = .apiError msg →
      strContains msg "rate_limit_exceeded" = false →
      (strContains msg "context_length_exceeded"
        || strContains msg "Please reduce the length of the messages or completion") = false →
      innerLoop oracle (fuel + 1) s num =
        .ret ⟨s.batch_articles, s.summaries, s.k + 1,
          s.calls ++ [(num, renderBatch (s.batch_articles.take num))], s.succs, s.sleeps⟩) ∧
    (∀ (oracle : Oracle) (fuel : Nat) (s : RState) (s' : RState), s.batch_articles ≠ [] →
      innerLoop oracle fuel s s.batch_articles.length = .ret s' →
      outerLoop oracle (fuel + 1) s = .done s' (pyJoin "\n\n" s'.summaries)) ∧
    ((summarize_articles c4Oracle 10 [tA, tB]).state.summaries = ["A"] ∧
      RunRes.result (summarize_articles c4Oracle 10 [tA, tB]) = some "A" ∧
      (summarize_articles c4Oracle 10 [tA, tB]).state.calls.map Prod.fst = [2, 1, 1]) := by
  refine ⟨?_, ?_, by decide, by decide, by decide⟩
  · intro oracle fuel s num msg hnum hfit hO hRL hCL
    exact step_other oracle fuel s num msg hnum hfit hO hRL hCL
  · intro oracle fuel s s' hne hinner
    rw [outerLoop, if_neg (by simpa [List.isEmpty_iff] using hne), hinner]

/-- C4 witness: the abort steps at a concrete state. -/
theorem c4_theorem_witness :
    innerLoop failOracle 1 ⟨[tA], ["A"], 1, [], [], []⟩ 1 =
      .ret ⟨[tA], ["A"], 2, [(1, renderBatch [tA])], [], []⟩ ∧
    outerLoop failOracle 2 ⟨[tA], ["A"], 1, [], [], []⟩ =
      .done ⟨[tA], ["A"], 2, [(1, renderBatch [tA])], [], []⟩ "A" := by
  constructor
  · have h := c4_theorem.1 failOracle 0 ⟨[tA], ["A"], 1, [], [], []⟩ 1
      "Internal server error" (by decide) (by decide) (by decide) (by decide) (by decide)
    exact h
  · have h := c4_theorem.2.1 failOracle 1 ⟨[tA], ["A"], 1, [], [], []⟩
      ⟨[tA], ["A"], 2, [(1, renderBatch [tA])], [], []⟩ (by decide) (by decide)
    exact h

/-- C8: absent (None or empty-string) dates default to the 30-day window
ending today; a malformed date string yields the date-format error string
with no external call and no exception; and whenever the parsed start date
is after the parsed end date the validation string is returned before any
ticker lookup, article fetch, or model call — in particular for NVDA with
start 2024-01-01 and end 2023-12-01, for every environment. -/
theorem c8_theorem :
    (∀ today lookup rss (oracle : Oracle) fuel t,
      summarize_stock_news today lookup rss oracle fuel t .noneV .noneV
        = summarize_stock_news today lookup rss oracle fuel t
            (.date (today.subDays 30)) (.date today) ∧
      summarize_stock_news today lookup rss oracle fuel t (.str "") (.str "")
        = summarize_stock_news today lookup rss oracle fuel t
            (.date (today.subDays 30)) (.date today)) ∧
    (∀ today lookup rss (oracle : Oracle) fuel t s1 din,
      DateInput.falsy (.str s1) = false → parseYMD s1 = none →
      summarize_stock_news today lookup rss oracle fuel t (.str s1) din
        = (.ok "Please enter valid dates in YYYY-MM-DD format.", [])) ∧
    (∀ today lookup rss (oracle : Oracle) fuel t sIn eIn sd ed,
      DateInput.falsy sIn = false → DateInput.falsy eIn = false →
      DateInput.toDate sIn = some sd → DateInput.toDate eIn = some ed →
      Date.ltB ed sd = true →
      summarize_stock_news today lookup rss oracle fuel t sIn eIn
        = (.ok "Start date must be before end date.", [])) ∧
    (∀ today lookup rss (oracle : Oracle) fuel,
      summarize_stock_news today lookup rss oracle fuel "NVDA"
          (.str "2024-01-01") (.str "2023-12-01")
        = (.ok "Start date must be before end date.", [])) := by
  have hc : ∀ today lookup rss (oracle : Oracle) fuel t sIn eIn sd ed,
      DateInput.falsy sIn = false → DateInput.falsy eIn = false →
      DateInput.toDate sIn = some sd → DateInput.toDate eIn = some ed →
      Date.ltB ed sd = true →
      summarize_stock_news today lookup rss oracle fuel t sIn eIn
        = (.ok "Start date must be before end date.", []) := by
    intro today lookup rss oracle fuel t sIn eIn sd ed hf1 hf2 hd1 hd2 hlt
    simp only [summarize_stock_news, hf1, hf2, Bool.false_eq_true, if_false, hd1, hd2, hlt,
      if_true]
  refine ⟨?_, ?_, hc, ?_⟩
  · intro today lookup rss oracle fuel t
    exact ⟨rfl, rfl⟩
  · intro today lookup rss oracle fuel t s1 din hf hp
    simp only [summarize_stock_news, hf, Bool.false_eq_true, if_false, DateInput.toDate, hp]
  · intro today lookup rss oracle fuel
    exact hc today lookup rss oracle fuel "NVDA" (.str "2024-01-01") (.str "2023-12-01")
      ⟨2024, 1, 1⟩ ⟨2023, 12, 1⟩ (by decide) (by decide) (by decide) (by decide) (by decide)

/-- C8 witness: a malformed month and a reversed range at concrete
inputs. -/
theorem c8_theorem_witness :
    summarize_stock_news today0 lookupOK rssEmpty okOracle 5 "NVDA"
        (.str "2024-13-01") .noneV
      = (.ok "Please enter valid dates in YYYY-MM-DD format.", []) ∧
    summarize_stock_news today0 lookupOK rssEmpty okOracle 5 "NVDA"
        (.str "2024-01-01") (.str "2023-12-01")
      = (.ok "Start date must be before end date.", []) := by
  constructor
  · exact c8_theorem.2.1 today0 lookupOK rssEmpty okOracle 5 "NVDA" "2024-13-01" .noneV
      (by decide) (by decide)
  · exact c8_theorem.2.2.2 today0 lookupOK rssEmpty okOracle 5

/-- A raised `fetch_news` exception is exactly a raised HTTP-request
exception: nothing else in it can raise. -/
lemma fetch_news_error (rss : String → Except String (List RssItem))
    (cn t : String) (sd ed : Date) (e : String) :
    fetch_news rss cn t sd ed = .error e →
    rss ("\"" ++ cn ++ "\" OR " ++ t ++ " stock") = .error e := by
  unfold fetch_news
  split
  · rename_i e' heq
    intro h
    cases h
    exact heq
  · intro h
    exact Except.noConfusion h

/-- C5 counterexample: a connection error raised by the HTTP request inside
`fetch_news` propagates uncaught through `summarize_stock_news` to the
caller — the UI layer does receive a raised exception. -/
theorem c5_counterexample :
    (summarize_stock_news today0 lookupOK rssFail okOracle 10 "NVDA"
        (.str "2024-01-01") (.str "2024-03-01")).1
      = .raised "requests.exceptions.ConnectionError" := by
  decide

/-- C5 (amended): every summarization-time error *except* an exception
raised by the article-fetch HTTP request itself (and the `float`
`ValueError` on a malformed rate-limit wait group) is absorbed and turned
into a retry, a partial result, or a plain message: if the HTTP request
does not raise and every parsable-looking wait group parses, the caller
never receives a raised exception. -/
theorem c5_theorem :
    ∀ today lookup rss (oracle : Oracle) fuel t sIn eIn,
      (∀ q e, rss q ≠ .error e) → WFOracle oracle →
      ∀ e, (summarize_stock_news today lookup rss oracle fuel t sIn eIn).1
        ≠ .raised e := by
  intro today lookup rss oracle fuel t sIn eIn hrss hwf e h
  simp only [summarize_stock_news] at h
  split at h
  · -- both dates resolved
    split at h
    · exact SSNRes.noConfusion h
    · split at h
      · exact SSNRes.noConfusion h
      · split at h
        · exact SSNRes.noConfusion h
        · split at h
          · -- the HTTP request raised
            rename_i e' heq
            exact absurd (fetch_news_error _ _ _ _ _ _ heq) (hrss _ e')
          · split at h
            · exact SSNRes.noConfusion h
            · split at h
              · exact SSNRes.noConfusion h
              · rename_i s' e'' heq'
                exact absurd heq' (summarize_no_exn oracle hwf fuel _ s' e'')
              · exact SSNRes.noConfusion h
  · exact SSNRes.noConfusion h

/-- C5 witness: with a non-raising news source and a well-formed model
oracle, a concrete call does not raise. -/
theorem c5_theorem_witness :
    (summarize_stock_news today0 lookupOK rssEmpty okOracle 10 "NVDA"
        (.str "2024-01-01") (.str "2024-03-01")).1
      ≠ .raised "requests.exceptions.ConnectionError" := by
  exact c5_theorem today0 lookupOK rssEmpty okOracle 10 "NVDA"
    (.str "2024-01-01") (.str "2024-03-01")
    (fun q e h => Except.noConfusion h)
    (fun k c msg g hO => ModelOutcome.noConfusion hO)
    "requests.exceptions.ConnectionError"

lemma fitsBudget_iff (s : String) : fitsBudget s ↔ s.length / 4 + 512 ≤ 7000 := Iff.rfl

/-- C6: across any run, accumulated summaries only grow (prefix order, so
length is non-decreasing) and the remaining queue is a suffix of what it
was (length non-increasing, removed only from the front); a successful
inner loop removes exactly its successful batch size from the front and
appends exactly one summary; a batch rejected for size leaves the state
untouched and retries one smaller. -/
theorem c6_theorem :
    (∀ (oracle : Oracle) (fuel : Nat) (s : RState),
      s.summaries <+: (outerLoop oracle fuel s).state.summaries ∧
      s.summaries.length ≤ (outerLoop oracle fuel s).state.summaries.length ∧
      (outerLoop oracle fuel s).state.batch_articles <:+ s.batch_articles ∧
      (outerLoop oracle fuel s).state.batch_articles.length ≤ s.batch_articles.length) ∧
    (∀ (oracle : Oracle) (fuel : Nat) (s : RState) (num : Nat) (s' : RState),
      innerLoop oracle fuel s num = .broke s' →
      ∃ m t, 0 < m ∧ m ≤ num ∧ s'.batch_articles = s.batch_articles.drop m ∧
        s'.summaries = s.summaries ++ [t] ∧ s'.succs = s.succs ++ [m]) ∧
    (∀ (oracle : Oracle) (fuel : Nat) (s : RState) (num : Nat), num ≠ 0 →
      ¬ fitsBudget (renderBatch (s.batch_articles.take num)) →
      innerLoop oracle (fuel + 1) s num = innerLoop oracle fuel s (num - 1)) := by
  refine ⟨?_, ?_, ?_⟩
  · intro oracle fuel s
    rcases outer_mono oracle fuel s with ⟨h1, h2, _⟩
    exact ⟨h1, h1.length_le, h2, h2.length_le⟩
  · intro oracle fuel s num s' h
    exact inner_broke oracle fuel s num s' h
  · intro oracle fuel s num hnum hover
    exact step_overBudget oracle fuel s num hnum hover

/-- C6 witness: a concrete successful batch and a concrete size
rejection. -/
theorem c6_theorem_witness :
    (∃ m t, 0 < m ∧ m ≤ 1 ∧
      ([] : List Article) = List.drop m [tA] ∧
      (["S"] : List String) = [] ++ [t] ∧ ([1] : List Nat) = [] ++ [m]) ∧
    innerLoop okOracle 1 ⟨[hugeArticle], [], 0, [], [], []⟩ 1 =
      innerLoop okOracle 0 ⟨[hugeArticle], [], 0, [], [], []⟩ 0 := by
  constructor
  · exact c6_theorem.2.1 okOracle 2 ⟨[tA], [], 0, [], [], []⟩ 1
      ⟨[], ["S"], 1, [(1, renderBatch [tA])], [1], []⟩ (by decide)
  · refine c6_theorem.2.2 okOracle 0 ⟨[hugeArticle], [], 0, [], [], []⟩ 1 (by decide) ?_
    intro hfit
    rw [show List.take 1 (RState.batch_articles ⟨[hugeArticle], [], 0, [], [], []⟩)
        = [hugeArticle] from rfl] at hfit
    rw [fitsBudget_iff, huge_len] at hfit
    revert hfit
    decide

/-- Under an always-succeeding model, an inner loop whose head article fits
the budget alone always ends in a success, consuming at most `num` fuel,
removing a nonempty front batch and appending one nonempty summary. -/
lemma inner_term (oracle : Oracle)
    (hok : ∀ k c, ∃ text, oracle k c = .success text ∧ pyStrip text ≠ "") :
    ∀ num fuel s, 1 ≤ num → num ≤ fuel →
      fitsBudget (renderBatch (s.batch_articles.take 1)) →
      ∃ s' m u, innerLoop oracle fuel s num = .broke s' ∧ 0 < m ∧
        s'.batch_articles = s.batch_articles.drop m ∧
        s'.summaries = s.summaries ++ [u] ∧ u ≠ "" := by
  intro num
  induction num with
  | zero =>
    intro fuel s h1
    exact absurd h1 (by decide)
  | succ m ihm =>
    intro fuel s h1 hfuel hfit1
    obtain ⟨f, rfl⟩ : ∃ f, fuel = f + 1 := ⟨fuel - 1, by omega⟩
    by_cases hfit : fitsBudget (renderBatch (s.batch_articles.take (m + 1)))
    · obtain ⟨text, hO, ht⟩ :=
        hok s.k (promptPre ++ renderBatch (s.batch_articles.take (m + 1)))
      exact ⟨_, m + 1, pyStrip text,
        step_success oracle f s (m + 1) text (by omega) hfit hO,
        by omega, rfl, rfl, ht⟩
    · cases m with
      | zero => exact absurd hfit1 hfit
      | succ k =>
        have hs := step_overBudget oracle f s (k + 1 + 1) (by omega) hfit
        obtain ⟨s', m', u, hrun, hm, hb, hsum, hu⟩ :=
          ihm f s (by omega) (by omega) hfit1
        refine ⟨s', m', u, ?_, hm, hb, hsum, hu⟩
        rw [hs]
        exact hrun

/-- Under an always-succeeding model, a run over a queue of length at most
`n` finishes normally within `n² + n + 1` fuel, with every summary
nonempty and at least one summary gained when the queue was nonempty. -/
lemma outer_term (oracle : Oracle)
    (hok : ∀ k c, ∃ text, oracle k c = .success text ∧ pyStrip text ≠ "") :
    ∀ n s fuel, s.batch_articles.length ≤ n → n * n + n + 1 ≤ fuel →
      (∀ a ∈ s.batch_articles, fitsBudget (renderBatch [a])) →
      (∀ t ∈ s.summaries, t ≠ "") →
      ∃ s' r, outerLoop oracle fuel s = .done s' r ∧
        (∀ t ∈ s'.summaries, t ≠ "") ∧
        (s.batch_articles ≠ [] → s.summaries.length < s'.summaries.length) := by
  intro n
  induction n with
  | zero =>
    intro s fuel hlen hfuel hfits hsum
    have hb : s.batch_articles = [] := List.length_eq_zero.mp (by omega)
    obtain ⟨f, rfl⟩ : ∃ f, fuel = f + 1 := ⟨fuel - 1, by omega⟩
    refine ⟨s, pyJoin "\n\n" s.summaries, ?_, hsum, fun hne => absurd hb hne⟩
    rw [outerLoop, if_pos (by simp [hb])]
  | succ n ihn =>
    intro s fuel hlen hfuel hfits hsum
    by_cases hb : s.batch_articles = []
    · obtain ⟨f, rfl⟩ : ∃ f, fuel = f + 1 := ⟨fuel - 1, by omega⟩
      refine ⟨s, pyJoin "\n\n" s.summaries, ?_, hsum, fun hne => absurd hb hne⟩
      rw [outerLoop, if_pos (by simp [hb])]
    · obtain ⟨f, rfl⟩ : ∃ f, fuel = f + 1 := ⟨fuel - 1, by omega⟩
      have hnum1 : 1 ≤ s.batch_articles.length := by
        rcases List.exists_cons_of_ne_nil hb with ⟨a, t, hL⟩
        rw [hL]
        simp
      have hfit1 : fitsBudget (renderBatch (s.batch_articles.take 1)) := by
        rcases List.exists_cons_of_ne_nil hb with ⟨a, t, hL⟩
        rw [hL, show (a :: t).take 1 = [a] from rfl]
        exact hfits a (by rw [hL]; exact List.mem_cons_self a t)
      have hnumf : s.batch_articles.length ≤ f := by
        have hq : (n + 1) ≤ (n + 1) * (n + 1) + (n + 1) := Nat.le_add_left _ _
        generalize hQ : (n + 1) * (n + 1) = Q at hfuel hq
        omega
      obtain ⟨s', m, u, hinner, hm, hbatch, hsummaries, hu⟩ :=
        inner_term oracle hok s.batch_articles.length f s hnum1 hnumf hfit1
      have hout : outerLoop oracle (f + 1) s = outerLoop oracle f s' := by
        rw [outerLoop, if_neg (by simpa [List.isEmpty_iff] using hb), hinner]
      have hlen' : s'.batch_articles.length ≤ n := by
        rw [hbatch, List.length_drop]
        omega
      have hfuel' : n * n + n + 1 ≤ f := by
        have hr : (n + 1) * (n + 1) = n * n + 2 * n + 1 := by ring
        rw [hr] at hfuel
        generalize hQ : n * n = Q at hfuel
        omega
      have hfits' : ∀ a ∈ s'.batch_articles, fitsBudget (renderBatch [a]) := by
        intro a ha
        rw [hbatch] at ha
        exact hfits a (List.drop_subset m _ ha)
      have hsum' : ∀ t ∈ s'.summaries, t ≠ "" := by
        intro t ht
        rw [hsummaries] at ht
        rcases List.mem_append.mp ht with h | h
        · exact hsum t h
        · rcases List.mem_singleton.mp h with rfl
          exact hu
      obtain ⟨s'', r, hdone, hsum'', hgrow''⟩ := ihn s' f hlen' hfuel' hfits' hsum'
      refine ⟨s'', r, by rw [hout, hdone], hsum'', fun _ => ?_⟩
      have h1 : s.summaries.length < s'.summaries.length := by
        rw [hsummaries]
        simp
      have h2 : s'.summaries.length ≤ s''.summaries.length := by
        have hmono := (outer_mono oracle f s').1
        rw [hdone] at hmono
        exact hmono.length_le
      omega

/-- A blank-line join of a nonempty list of nonempty strings is
nonempty. -/
lemma pyJoin_ne_empty : ∀ l : List String, l ≠ [] → (∀ t ∈ l, t ≠ "") →
    pyJoin "\n\n" l ≠ "" := by
  intro l hne hall
  cases l with
  | nil => exact absurd rfl hne
  | cons x t =>
    cases t with
    | nil => exact hall x (List.mem_singleton_self x)
    | cons y t2 =>
      show x ++ "\n\n" ++ pyJoin "\n\n" (y :: t2) ≠ ""
      intro heq
      have hl := congrArg String.length heq
      rw [strLen_append, strLen_append] at hl
      rw [show ("\n\n" : String).length = 2 from rfl,
        show ("" : String).length = 0 from rfl] at hl
      omega

/-- Against a model that always fails unrecoverably, the run on one tiny
article either runs out of fuel or returns the empty string. -/
lemma c7fail : ∀ (fuel : Nat) (s : RState) (r : String),
    summarize_articles failOracle fuel [tA] = .done s r → r = "" := by
  intro fuel
  match fuel with
  | 0 =>
    intro s r h
    exact RunRes.noConfusion h
  | 1 =>
    intro s r h
    rw [show summarize_articles failOracle 1 [tA]
        = .fuelOut ⟨[tA], [], 0, [], [], []⟩ from by decide] at h
    exact RunRes.noConfusion h
  | (n + 2) =>
    intro s r h
    have hstep : innerLoop failOracle (n + 1) ⟨[tA], [], 0, [], [], []⟩ 1 =
        .ret ⟨[tA], [], 1, [(1, renderBatch [tA])], [], []⟩ :=
      step_other failOracle n ⟨[tA], [], 0, [], [], []⟩ 1 "Internal server error"
        (by decide) (by decide) rfl (by decide) (by decide)
    have hrun : summarize_articles failOracle (n + 2) [tA] =
        .done ⟨[tA], [], 1, [(1, renderBatch [tA])], [], []⟩ "" := by
      show outerLoop failOracle ((n + 1) + 1) ⟨[tA], [], 0, [], [], []⟩ = _
      rw [outerLoop]
      rw [if_neg (by decide : ¬ (([tA] : List Article).isEmpty = true))]
      rw [show List.length ([tA] : List Article) = 1 from rfl]
      rw [hstep]
      rfl
    rw [hrun] at h
    cases h
    rfl

/-- C7 counterexample: the claim holds for no unrestricted model — against
a model that always fails with an unrecoverable error, a one-article input
whose single-article prompt fits the budget terminates with the *empty*
string (and under an eternally rate-limiting model it would not terminate
at all), so some model-behavior assumption is required. -/
theorem c7_counterexample :
    ¬ (∀ (oracle : Oracle) (articles : List Article), articles ≠ [] →
        (∀ a ∈ articles, fitsBudget (renderBatch [a])) →
        ∃ fuel s r, summarize_articles oracle fuel articles = .done s r ∧ r ≠ "") := by
  intro H
  rcases H failOracle [tA] (by decide) (by decide) with ⟨fuel, s, r, hrun, hne⟩
  exact hne (c7fail fuel s r hrun)

/-- C7 (amended): for every non-empty article sequence in which each
individually-rendered single-article prompt fits the token budget, and a
model that always succeeds with non-blank (after stripping) summaries,
`summarize_articles` terminates (some fuel yields a normal return) and
returns a non-empty string. -/
theorem c7_theorem :
    ∀ (oracle : Oracle) (articles : List Article),
      (∀ k c, ∃ text, oracle k c = .success text ∧ pyStrip text ≠ "") →
      articles ≠ [] →
      (∀ a ∈ articles, fitsBudget (renderBatch [a])) →
      ∃ fuel s r, summarize_articles oracle fuel articles = .done s r ∧ r ≠ "" := by
  intro oracle articles hok hne hfits
  obtain ⟨s', r, hdone, hsum', hgrow⟩ := outer_term oracle hok articles.length
    ⟨articles, [], 0, [], [], []⟩
    (articles.length * articles.length + articles.length + 1)
    (le_refl _) (le_refl _) hfits (by simp)
  refine ⟨_, s', r, hdone, ?_⟩
  rw [outer_done_result oracle _ _ s' r hdone]
  refine pyJoin_ne_empty _ ?_ hsum'
  have hg := hgrow hne
  intro h0
  rw [h0] at hg
  simp at hg

/-- C7 witness: the always-"S" stub on one article terminates with a
non-empty result. -/
theorem c7_theorem_witness :
    ∃ fuel s r, summarize_articles okOracle fuel [tA] = .done s r ∧ r ≠ "" := by
  exact c7_theorem okOracle [tA] (fun k c => ⟨"S", rfl, by decide⟩)
    (by decide) (by decide)

end StockNews
